import Mathlib

/-!
Verification of the SpartanEngine RHI core against its specification.

The definitions below are a shallow embedding of the C++ sources:

* `Runtime/RHI/RHI_Device.cpp` — physical-device / display-mode registration,
  primary-device selection, resolution validation;
* the descriptor cache (`RHI_DescriptorCache.cpp` together with
  `Vulkan/Vulkan_DescriptorCache.cpp`) — layout derivation from a shader pair,
  descriptor merging, capacity management, null-layout guards;
* the renderer (`Renderer.cpp` / `Renderer_Passes.cpp`) — renderable sorting,
  the post-process chain, per-pass skip policy, and `SetResolution`.

C++ `uint32_t` counters are modelled as `Nat`: none of the verified
operations can bring any of these counters anywhere near `2^32` (doing so
would require on the order of `2^31` live GPU objects), so unsigned
wrap-around is not modelled.  Pointer identity of heap objects is modelled
by explicit numeric ids handed out by a creation counter.
-/

namespace Spartan

/-- A physical GPU as registered with `RHI_Device`: only the fields the
verified code reads (`GetName`, `GetMemory`, in MB) are modelled. -/
structure PhysicalDevice where
  name : String
  memory : Nat
deriving DecidableEq, Repr

/-- A display mode; `refresh_rate` is a `double` in C++, modelled as a `Nat`
(Hz) since the verified code only compares rates and propagates the largest
one. -/
structure DisplayMode where
  width : Nat
  height : Nat
  refresh_rate : Nat
deriving DecidableEq, Repr

/-- The device state touched by the claims: the two sorted lists, the two
selection indices, and the frame-timing target propagated to the `Timer`
subsystem by `RegisterDisplayMode` (`SetTargetFps`). -/
structure RHI_Device where
  physical_devices : List PhysicalDevice
  physical_device_index : Nat
  display_modes : List DisplayMode
  display_mode_index : Nat
  timer_target_fps : Option Nat
deriving DecidableEq, Repr

/-- The comparator passed to `std::sort` in `RegisterPhysicalDevice` is
`adapter1.GetMemory() > adapter2.GetMemory()`; a sequence is sorted for
`std::sort`'s strict comparator `>` exactly when it is pairwise `≥`, which
is the Boolean relation we sort with here. -/
def memGE (a b : PhysicalDevice) : Bool := decide (b.memory ≤ a.memory)

/-- Comparator of `RegisterDisplayMode`: refresh rate, highest first. -/
def rateGE (a b : DisplayMode) : Bool := decide (b.refresh_rate ≤ a.refresh_rate)

/-- `RHI_Device::RegisterPhysicalDevice`: append, then keep the whole list
sorted by memory from highest to lowest (`std::sort` is modelled by
`List.mergeSort`, which produces a sorted permutation — all the source
relies on). -/
def RegisterPhysicalDevice (st : RHI_Device) (pd : PhysicalDevice) : RHI_Device :=
  { st with physical_devices := List.mergeSort (st.physical_devices ++ [pd]) memGE }

/-- `RHI_Device::GetPrimaryPhysicalDevice`: `nullptr` (here `none`) when the
stored index is out of range, otherwise the device at the index. -/
def GetPrimaryPhysicalDevice (st : RHI_Device) : Option PhysicalDevice :=
  st.physical_devices[st.physical_device_index]?

/-- `RHI_Device::SetPrimaryPhysicalDevice`: the index is stored
unconditionally; the `LOG_INFO` fires only when the freshly selected device
exists.  Returns the new state paired with whether the selection was
logged. -/
def SetPrimaryPhysicalDevice (st : RHI_Device) (index : Nat) : RHI_Device × Bool :=
  let st2 : RHI_Device := { st with physical_device_index := index }
  (st2, (GetPrimaryPhysicalDevice st2).isSome)

/-- `RHI_Device::RegisterDisplayMode`: append, re-sort by refresh rate from
highest to lowest, and hand the front (highest) rate to the timer. -/
def RegisterDisplayMode (st : RHI_Device) (dm : DisplayMode) : RHI_Device :=
  let modes := List.mergeSort (st.display_modes ++ [dm]) rateGE
  { st with display_modes := modes, timer_target_fps := (modes.head?).map DisplayMode.refresh_rate }

/-- `RHI_Device::ValidateResolution`: both dimensions strictly positive and
at most `max_texture_dimension_2d` (a device capability constant, passed
here as `maxDim`). -/
def ValidateResolution (maxDim width height : Nat) : Bool :=
  decide (0 < width) && decide (width ≤ maxDim) && decide (0 < height) && decide (height ≤ maxDim)

theorem memGE_trans : ∀ a b c : PhysicalDevice, memGE a b → memGE b c → memGE a c := by
  intro a b c hab hbc
  simp only [memGE, decide_eq_true_eq] at *
  omega

theorem memGE_total : ∀ a b : PhysicalDevice, memGE a b || memGE b a := by
  intro a b
  simp only [memGE, Bool.or_eq_true, decide_eq_true_eq]
  omega

theorem rateGE_trans : ∀ a b c : DisplayMode, rateGE a b → rateGE b c → rateGE a c := by
  intro a b c hab hbc
  simp only [rateGE, decide_eq_true_eq] at *
  omega

theorem rateGE_total : ∀ a b : DisplayMode, rateGE a b || rateGE b a := by
  intro a b
  simp only [rateGE, Bool.or_eq_true, decide_eq_true_eq]
  omega

unseal List.merge List.mergeSort in
/-- C4: after any `RegisterPhysicalDevice` call the device list is
non-increasing by memory and is a permutation of the previous list plus the
new entry (the sort is applied to the whole list on every call, so this
holds after any sequence of calls); likewise every `RegisterDisplayMode`
call leaves the display-mode list non-increasing by refresh rate; and
registering devices with 2048, 8192 and 4096 MB of memory, in that order,
into an empty device yields the memory order 8192, 4096, 2048. -/
theorem C4_register_sorted :
    (∀ (st : RHI_Device) (pd : PhysicalDevice),
      ((RegisterPhysicalDevice st pd).physical_devices.Pairwise
        (fun a b => b.memory ≤ a.memory)) ∧
      (RegisterPhysicalDevice st pd).physical_devices.Perm (st.physical_devices ++ [pd])) ∧
    (∀ (st : RHI_Device) (dm : DisplayMode),
      ((RegisterDisplayMode st dm).display_modes.Pairwise
        (fun a b => b.refresh_rate ≤ a.refresh_rate)) ∧
      (RegisterDisplayMode st dm).display_modes.Perm (st.display_modes ++ [dm])) ∧
    (((RegisterPhysicalDevice
        (RegisterPhysicalDevice
          (RegisterPhysicalDevice
            ⟨[], 0, [], 0, none⟩ ⟨"a", 2048⟩) ⟨"b", 8192⟩) ⟨"c", 4096⟩).physical_devices.map
              PhysicalDevice.memory) = [8192, 4096, 2048]) := by
  refine ⟨fun st pd => ⟨?_, ?_⟩, fun st dm => ⟨?_, ?_⟩, by decide⟩
  · have h := List.sorted_mergeSort memGE_trans memGE_total (st.physical_devices ++ [pd])
    exact h.imp (fun hab => by simpa [memGE] using hab)
  · exact List.mergeSort_perm _ _
  · have h := List.sorted_mergeSort rateGE_trans rateGE_total (st.display_modes ++ [dm])
    exact h.imp (fun hab => by simpa [rateGE] using hab)
  · exact List.mergeSort_perm _ _

/-- C5: `ValidateResolution(w, h)` succeeds exactly when
`0 < w ≤ maxDim` and `0 < h ≤ maxDim`; in particular `(0, h)`, `(w, 0)` and
`(maxDim + 1, h)` always fail, while `(1, 1)` and `(maxDim, maxDim)`
succeed for any positive capability bound. -/
theorem C5_validate_resolution (maxDim : Nat) (hpos : 0 < maxDim) :
    (∀ w h : Nat, ValidateResolution maxDim w h = true ↔
      (0 < w ∧ w ≤ maxDim ∧ 0 < h ∧ h ≤ maxDim)) ∧
    (∀ h : Nat, ValidateResolution maxDim 0 h = false) ∧
    (∀ w : Nat, ValidateResolution maxDim w 0 = false) ∧
    (∀ h : Nat, ValidateResolution maxDim (maxDim + 1) h = false) ∧
    ValidateResolution maxDim 1 1 = true ∧
    ValidateResolution maxDim maxDim maxDim = true := by
  refine ⟨fun w h => ?_, fun h => ?_, fun w => ?_, fun h => ?_, ?_, ?_⟩ <;>
    simp only [ValidateResolution, Bool.and_eq_true, decide_eq_true_eq,
      Bool.and_eq_false_iff, decide_eq_false_iff_not] <;>
    omega

/-- Witness for C5 at a concrete capability bound. -/
theorem C5_validate_resolution_witness :
    ValidateResolution 16384 16384 16384 = true ∧ ValidateResolution 16384 0 7 = false :=
  ⟨(C5_validate_resolution 16384 (by decide)).2.2.2.2.2,
   (C5_validate_resolution 16384 (by decide)).2.1 7⟩

/-- C6 counterexample: on a device holding exactly one physical device with
the primary index 0, calling `SetPrimaryPhysicalDevice 5` (an invalid
index) does not leave the primary-device selection unchanged — the stored
index becomes 5 and `GetPrimaryPhysicalDevice` now returns `none` instead
of the previously selected device. -/
theorem C6_invalid_index_changes_selection :
    GetPrimaryPhysicalDevice
        (SetPrimaryPhysicalDevice ⟨[⟨"gpu", 1024⟩], 0, [], 0, none⟩ 5).1 ≠
      GetPrimaryPhysicalDevice ⟨[⟨"gpu", 1024⟩], 0, [], 0, none⟩ := by
  decide

/-- C6 (amended): `SetPrimaryPhysicalDevice(index)` stores the index
unconditionally; afterwards `GetPrimaryPhysicalDevice` returns the device
at that index when it is a valid position (and the selection is logged),
and returns null when it is not (nothing is logged and the previous
selection is lost). -/
theorem C6_set_primary_physical_device (st : RHI_Device) (index : Nat) :
    (SetPrimaryPhysicalDevice st index).1.physical_device_index = index ∧
    GetPrimaryPhysicalDevice (SetPrimaryPhysicalDevice st index).1 =
      st.physical_devices[index]? ∧
    ((SetPrimaryPhysicalDevice st index).2 = true ↔ index < st.physical_devices.length) := by
  refine ⟨rfl, rfl, ?_⟩
  rcases Nat.lt_or_ge index st.physical_devices.length with h | h
  · simp [SetPrimaryPhysicalDevice, GetPrimaryPhysicalDevice, List.getElem?_eq_getElem h, h]
  · simp only [SetPrimaryPhysicalDevice, GetPrimaryPhysicalDevice, List.getElem?_eq_none h,
      Option.isSome_none, Bool.false_eq_true, false_iff, Nat.not_lt]
    exact h

/-! ## Descriptor cache (`RHI_DescriptorCache.cpp`, `Vulkan_DescriptorCache.cpp`) -/

/-- The descriptor kinds handled by `GenerateDescriptors` and the Vulkan
pool (`RHI_Descriptor_ConstantBuffer`, `RHI_Descriptor_ConstantBufferDynamic`,
`RHI_Descriptor_Texture`, `RHI_Descriptor_Sampler`). -/
inductive RHI_Descriptor_Type
  | ConstantBuffer
  | ConstantBufferDynamic
  | Texture
  | Sampler
deriving DecidableEq, Repr

/-- Per-slot descriptor metadata reflected from a shader: kind, binding
slot, and the shader-stage visibility bitmask. -/
structure RHI_Descriptor where
  type : RHI_Descriptor_Type
  slot : Nat
  stage : Nat
deriving DecidableEq, Repr

/-- The part of `RHI_Shader` the descriptor cache reads: its object id
(`GetId`), its name, and its reflected descriptor list (`GetDescriptors`).
`GenerateDescriptors` busy-waits until compilation has finished before
reading the descriptors; the model reads the final reflected list
directly. -/
structure RHI_Shader where
  id : Nat
  name : String
  descriptors : List RHI_Descriptor
deriving DecidableEq, Repr

/-- The fields of `RHI_PipelineState` consumed by the descriptor cache.
`SetPipelineState` dereferences `shader_vertex` unconditionally, so the
vertex shader is required; the pixel shader is optional.
`dynamic_constant_buffer_slot` is an `int` whose value `-1` means "no
dynamic slot". -/
structure RHI_PipelineState where
  shader_vertex : RHI_Shader
  shader_pixel : Option RHI_Shader
  dynamic_constant_buffer_slot : Int
deriving DecidableEq, Repr

/-- Modelled from the spec: `Utility::Hash::hash_combine` (the utility
header is not part of the sources at hand).  The spec only requires a
deterministic hash-combine of the two shader ids; we use the standard
boost-style formula on 64-bit values. -/
def hash_combine (seed h : Nat) : Nat :=
  (seed ^^^ ((h + 0x9e3779b9 + seed * 64 + seed / 4) % 2 ^ 64)) % 2 ^ 64

/-- The shader-pair hash computed at the top of
`RHI_DescriptorCache::SetPipelineState`: combine the vertex-shader id, then
the pixel-shader id when a pixel shader is present. -/
def shaderPairHash (ps : RHI_PipelineState) : Nat :=
  let h := hash_combine 0 ps.shader_vertex.id
  match ps.shader_pixel with
  | some p => hash_combine h p.id
  | none => h

/-- A descriptor-set layout as owned by the cache.  `layout_object_id`
models the C++ heap identity of the `shared_ptr<RHI_DescriptorSetLayout>`
(fresh ids come from a creation counter).  The binding tables and the
per-layout descriptor-set count are the state the layout-level calls
(modelled from the spec) manipulate. -/
structure RHI_DescriptorSetLayout where
  layout_object_id : Nat
  descriptors : List RHI_Descriptor
  descriptor_set_count : Nat
  needs_to_bind : Bool
  constant_buffers : List (Nat × Nat)
  samplers : List (Nat × Nat)
  textures : List (Nat × Nat)
  dynamic_offsets : List Nat
deriving DecidableEq, Repr

/-- The `RHI_DescriptorCache` state: set capacity, the device constant
`shader_shift_buffer` read from the RHI context, the creation counter for
layout identities, the hash-keyed layout map (`std::unordered_map`,
modelled as an association list with unique keys), the current-layout
pointer (`none` models `nullptr`), and the debug name. -/
structure RHI_DescriptorCache where
  descriptor_set_capacity : Nat
  shader_shift_buffer : Nat
  next_layout_object_id : Nat
  descriptor_set_layouts : List (Nat × RHI_DescriptorSetLayout)
  descriptor_layout_current : Option Nat
  name : String
deriving DecidableEq, Repr

/-- The inner loop of `GenerateDescriptors`: scan the accumulated list for
a descriptor with the same `(type, slot)`; on the first hit, OR the
reflected stage bits into it and stop.  `none` signals that no update took
place. -/
def update_existing : List RHI_Descriptor → RHI_Descriptor → Option (List RHI_Descriptor)
  | [], _ => none
  | d :: rest, dr =>
    if d.type = dr.type ∧ d.slot = dr.slot then
      some ({ d with stage := d.stage ||| dr.stage } :: rest)
    else
      (update_existing rest dr).map (fun l => d :: l)

/-- One step of the pixel-shader merge in `GenerateDescriptors`: update the
existing descriptor if the `(type, slot)` pair is already present,
otherwise append the reflected descriptor. -/
def merge_descriptor (acc : List RHI_Descriptor) (dr : RHI_Descriptor) : List RHI_Descriptor :=
  match update_existing acc dr with
  | some l => l
  | none => acc ++ [dr]

/-- The body of the trailing loop of `GenerateDescriptors`: a
`ConstantBuffer` descriptor whose slot equals
`dynamic_constant_buffer_slot + shader_shift_buffer` becomes a
`ConstantBufferDynamic`; every other descriptor is left alone. -/
def convert_dynamic (dyn : Int) (shift : Nat) (d : RHI_Descriptor) : RHI_Descriptor :=
  if d.type = RHI_Descriptor_Type.ConstantBuffer ∧ (d.slot : Int) = dyn + shift then
    { d with type := RHI_Descriptor_Type.ConstantBufferDynamic }
  else d

/-- The trailing loop of `GenerateDescriptors`: the conversion runs only
when the pipeline state requests a dynamic slot (`!= -1`). -/
def apply_dynamic_slot (dyn : Int) (shift : Nat) (l : List RHI_Descriptor) : List RHI_Descriptor :=
  if dyn = -1 then l else l.map (convert_dynamic dyn shift)

/-- `RHI_DescriptorCache::GenerateDescriptors`: start from the vertex
shader's reflected descriptors, merge the pixel shader's descriptors into
them (OR-ing stage visibility on equal `(type, slot)` pairs), then apply
the dynamic-slot conversion. -/
def GenerateDescriptors (shift : Nat) (ps : RHI_PipelineState) : List RHI_Descriptor :=
  let base := ps.shader_vertex.descriptors
  let merged :=
    match ps.shader_pixel with
    | none => base
    | some p => p.descriptors.foldl merge_descriptor base
  apply_dynamic_slot ps.dynamic_constant_buffer_slot shift merged

/-- Lookup in the hash-keyed layout map. -/
def find_layout (hash : Nat) : List (Nat × RHI_DescriptorSetLayout) → Option RHI_DescriptorSetLayout
  | [] => none
  | (k, L) :: rest => if k = hash then some L else find_layout hash rest

/-- Apply `f` to the layout stored under `hash` (the map's keys are
unique, so at most one entry changes). -/
def update_layout (hash : Nat) (f : RHI_DescriptorSetLayout → RHI_DescriptorSetLayout) :
    List (Nat × RHI_DescriptorSetLayout) → List (Nat × RHI_DescriptorSetLayout)
  | [] => []
  | (k, L) :: rest =>
    if k = hash then (k, f L) :: rest else (k, L) :: update_layout hash f rest

/-- The debug name built at the top of `SetPipelineState`
(`vertexName-pixelName`, with `"null"` for a missing pixel shader). -/
def pair_name (ps : RHI_PipelineState) : String :=
  ps.shader_vertex.name ++ "-" ++
    (match ps.shader_pixel with
     | some p => p.name
     | none => "null")

/-- `RHI_DescriptorCache::SetPipelineState`: compute the shader-pair hash;
if no layout exists for it, generate the descriptors and emplace a new
layout (with a fresh object identity); then select the layout under that
hash as current and flag it `NeedsToBind`. -/
def SetPipelineState (st : RHI_DescriptorCache) (ps : RHI_PipelineState) : RHI_DescriptorCache :=
  let hash := shaderPairHash ps
  let st1 :=
    if (find_layout hash st.descriptor_set_layouts).isNone then
      { st with
        descriptor_set_layouts := st.descriptor_set_layouts ++
          [(hash, ⟨st.next_layout_object_id, GenerateDescriptors st.shader_shift_buffer ps,
            0, false, [], [], [], []⟩)]
        next_layout_object_id := st.next_layout_object_id + 1 }
    else st
  { st1 with
    name := pair_name ps
    descriptor_layout_current := some hash
    descriptor_set_layouts :=
      update_layout hash (fun L => { L with needs_to_bind := true }) st1.descriptor_set_layouts }

/-- `RHI_DescriptorCache::SetConstantBuffer`: with no current layout, log
`"Invalid descriptor set layout"` and return (the Boolean records whether
that error path was taken).  The forwarded layout update is modelled from
the spec: the layout records which constant buffer is bound at the slot. -/
def SetConstantBuffer (st : RHI_DescriptorCache) (slot buffer_id : Nat) :
    RHI_DescriptorCache × Bool :=
  match st.descriptor_layout_current with
  | none => (st, true)
  | some hash =>
    ({ st with
        descriptor_set_layouts :=
          update_layout hash
            (fun L => { L with constant_buffers := (slot, buffer_id) :: L.constant_buffers })
            st.descriptor_set_layouts }, false)

/-- `RHI_DescriptorCache::SetSampler`: same guard as `SetConstantBuffer`;
the forwarded update (modelled from the spec) records the sampler bound at
the slot. -/
def SetSampler (st : RHI_DescriptorCache) (slot sampler_id : Nat) :
    RHI_DescriptorCache × Bool :=
  match st.descriptor_layout_current with
  | none => (st, true)
  | some hash =>
    ({ st with
        descriptor_set_layouts :=
          update_layout hash
            (fun L => { L with samplers := (slot, sampler_id) :: L.samplers })
            st.descriptor_set_layouts }, false)

/-- `RHI_DescriptorCache::SetTexture`: same guard; the forwarded update
(modelled from the spec) records the texture bound at the slot. -/
def SetTexture (st : RHI_DescriptorCache) (slot texture_id : Nat) :
    RHI_DescriptorCache × Bool :=
  match st.descriptor_layout_current with
  | none => (st, true)
  | some hash =>
    ({ st with
        descriptor_set_layouts :=
          update_layout hash
            (fun L => { L with textures := (slot, texture_id) :: L.textures })
            st.descriptor_set_layouts }, false)

/-- `RHI_DescriptorCache::GetResource_DescriptorSetLayout`: `nullptr`
(`none`) with no current layout, otherwise the native layout handle
(modelled by the layout's object identity). -/
def GetResource_DescriptorSetLayout (st : RHI_DescriptorCache) : Option Nat :=
  match st.descriptor_layout_current with
  | none => none
  | some hash => (find_layout hash st.descriptor_set_layouts).map (fun L => L.layout_object_id)

/-- `RHI_DescriptorCache::GetResource_DescriptorSet`: with no current
layout, log and return false.  Otherwise the layout resolves a descriptor
set; modelled from the spec, the layout allocates a set from its pool
(incrementing the cache-wide set count) and succeeds. -/
def GetResource_DescriptorSet (st : RHI_DescriptorCache) : RHI_DescriptorCache × Bool :=
  match st.descriptor_layout_current with
  | none => (st, false)
  | some hash =>
    ({ st with
        descriptor_set_layouts :=
          update_layout hash
            (fun L => { L with descriptor_set_count := L.descriptor_set_count + 1 })
            st.descriptor_set_layouts }, true)

/-- `RHI_DescriptorCache::GetDynamicOffsets`: with no current layout the
C++ code logs and returns `std::vector<uint32_t>()` — the value is the
empty vector (note the C++ signature returns it as a `const&` to a
function-local temporary). -/
def GetDynamicOffsets (st : RHI_DescriptorCache) : List Nat :=
  match st.descriptor_layout_current with
  | none => []
  | some hash =>
    match find_layout hash st.descriptor_set_layouts with
    | some L => L.dynamic_offsets
    | none => []

/-- `RHI_DescriptorCache::GetDescriptorSetCount`: sum of the per-layout
descriptor-set counts. -/
def GetDescriptorSetCount (st : RHI_DescriptorCache) : Nat :=
  (st.descriptor_set_layouts.map (fun p => p.2.descriptor_set_count)).sum

/-- `RHI_DescriptorCache::HasEnoughCapacity`:
`m_descriptor_set_capacity > GetDescriptorSetCount()`. -/
def HasEnoughCapacity (st : RHI_DescriptorCache) : Bool :=
  decide (GetDescriptorSetCount st < st.descriptor_set_capacity)

/-- `RHI_DescriptorCache::SetDescriptorSetCapacity` (Vulkan backend):
wait for all queues, destroy every layout (and with them all descriptor
sets, so the set count drops to zero), clear the current-layout pointer,
and recreate the pool with the given capacity. -/
def SetDescriptorSetCapacity (st : RHI_DescriptorCache) (capacity : Nat) : RHI_DescriptorCache :=
  { st with
    descriptor_set_capacity := capacity
    descriptor_set_layouts := []
    descriptor_layout_current := none }

/-- `RHI_DescriptorCache::GrowIfNeeded`: if `count + 1` exceeds the
capacity, double the capacity and recreate the pool; otherwise do
nothing. -/
def GrowIfNeeded (st : RHI_DescriptorCache) : RHI_DescriptorCache :=
  let required_capacity := GetDescriptorSetCount st + 1
  if st.descriptor_set_capacity < required_capacity then
    SetDescriptorSetCapacity st (st.descriptor_set_capacity * 2)
  else st

/-- The cache operations that can run between two `GrowIfNeeded` calls:
selecting a pipeline state, resolving a descriptor set (which allocates
one), or growing.  Used to state the any-sequence capacity invariant. -/
inductive CacheOp
  | setPipeline (ps : RHI_PipelineState)
  | allocSet
  | grow
deriving Repr

/-- One step of the cache's public interface. -/
def cacheStep (st : RHI_DescriptorCache) : CacheOp → RHI_DescriptorCache
  | CacheOp.setPipeline ps => SetPipelineState st ps
  | CacheOp.allocSet => (GetResource_DescriptorSet st).1
  | CacheOp.grow => GrowIfNeeded st

/-- Run a sequence of cache operations. -/
def cacheRun (st : RHI_DescriptorCache) (ops : List CacheOp) : RHI_DescriptorCache :=
  ops.foldl cacheStep st

theorem setPipelineState_capacity (st : RHI_DescriptorCache) (ps : RHI_PipelineState) :
    (SetPipelineState st ps).descriptor_set_capacity = st.descriptor_set_capacity := by
  by_cases h : (find_layout (shaderPairHash ps) st.descriptor_set_layouts).isNone <;>
    simp [SetPipelineState, h]

theorem getResourceDescriptorSet_capacity (st : RHI_DescriptorCache) :
    (GetResource_DescriptorSet st).1.descriptor_set_capacity = st.descriptor_set_capacity := by
  unfold GetResource_DescriptorSet
  split <;> rfl

/-- C2: `HasEnoughCapacity` is true exactly when the total descriptor-set
count is strictly below the capacity; `GrowIfNeeded` doubles the capacity
exactly once when `count + 1` exceeds it and leaves the whole state
unchanged otherwise; after any `GrowIfNeeded` call the set count is
strictly below the (positive) capacity; and after any sequence of cache
operations the capacity is a power-of-two multiple of its starting
value. -/
theorem C2_capacity_management :
    (∀ st : RHI_DescriptorCache,
      HasEnoughCapacity st = true ↔ GetDescriptorSetCount st < st.descriptor_set_capacity) ∧
    (∀ st : RHI_DescriptorCache,
      (st.descriptor_set_capacity < GetDescriptorSetCount st + 1 →
        (GrowIfNeeded st).descriptor_set_capacity = st.descriptor_set_capacity * 2) ∧
      (GetDescriptorSetCount st + 1 ≤ st.descriptor_set_capacity → GrowIfNeeded st = st)) ∧
    (∀ st : RHI_DescriptorCache, 0 < st.descriptor_set_capacity →
      GetDescriptorSetCount (GrowIfNeeded st) < (GrowIfNeeded st).descriptor_set_capacity) ∧
    (∀ (st : RHI_DescriptorCache) (ops : List CacheOp),
      ∃ k : Nat,
        (cacheRun st ops).descriptor_set_capacity = 2 ^ k * st.descriptor_set_capacity) := by
  refine ⟨fun st => ?_, fun st => ⟨fun h => ?_, fun h => ?_⟩, fun st hpos => ?_, fun st ops => ?_⟩
  · simp [HasEnoughCapacity]
  · simp [GrowIfNeeded, SetDescriptorSetCapacity, h]
  · simp [GrowIfNeeded, Nat.not_lt.mpr h]
  · by_cases h : st.descriptor_set_capacity < GetDescriptorSetCount st + 1
    · have hg : GrowIfNeeded st = SetDescriptorSetCapacity st (st.descriptor_set_capacity * 2) := by
        simp [GrowIfNeeded, h]
      rw [hg]
      simp only [SetDescriptorSetCapacity, GetDescriptorSetCount, List.map_nil, List.sum_nil]
      omega
    · have hg : GrowIfNeeded st = st := by simp [GrowIfNeeded, h]
      rw [hg]
      omega
  · induction ops generalizing st with
    | nil => exact ⟨0, by simp [cacheRun]⟩
    | cons op rest ih =>
      obtain ⟨k, hk⟩ := ih (cacheStep st op)
      have hrun : cacheRun st (op :: rest) = cacheRun (cacheStep st op) rest := rfl
      cases op with
      | setPipeline ps =>
        exact ⟨k, by rw [hrun, hk, cacheStep, setPipelineState_capacity]⟩
      | allocSet =>
        exact ⟨k, by rw [hrun, hk, cacheStep, getResourceDescriptorSet_capacity]⟩
      | grow =>
        by_cases h : st.descriptor_set_capacity < GetDescriptorSetCount st + 1
        · refine ⟨k + 1, ?_⟩
          rw [hrun, hk]
          simp [cacheStep, GrowIfNeeded, SetDescriptorSetCapacity, h]
          ring
        · refine ⟨k, ?_⟩
          rw [hrun, hk]
          simp [cacheStep, GrowIfNeeded, h]

/-- Witness for C2 at a concrete cache state (part with a hypothesis:
growing from a positive capacity re-establishes `count < capacity`). -/
theorem C2_capacity_management_witness :
    GetDescriptorSetCount (GrowIfNeeded ⟨2048, 100, 0, [], none, ""⟩) <
      (GrowIfNeeded ⟨2048, 100, 0, [], none, ""⟩).descriptor_set_capacity :=
  C2_capacity_management.2.2.1 ⟨2048, 100, 0, [], none, ""⟩ (by decide)

/-- C3: with no current layout selected (`m_descriptor_layout_current ==
nullptr`), every binding call and every retrieval takes the logged error
path, returns its failure value (`true` in the pair marks that the error
was logged for the `void` setters; `none`/`false`/the empty offset vector
for the getters), and leaves the cache state unchanged.  Note: for
`GetDynamicOffsets` the C++ code produces this empty vector as a `const&`
to a function-local temporary — see the code-bug record for this claim. -/
theorem C3_null_layout_guards (st : RHI_DescriptorCache)
    (h : st.descriptor_layout_current = none) :
    (∀ slot buffer_id : Nat, SetConstantBuffer st slot buffer_id = (st, true)) ∧
    (∀ slot sampler_id : Nat, SetSampler st slot sampler_id = (st, true)) ∧
    (∀ slot texture_id : Nat, SetTexture st slot texture_id = (st, true)) ∧
    GetResource_DescriptorSetLayout st = none ∧
    GetResource_DescriptorSet st = (st, false) ∧
    GetDynamicOffsets st = [] := by
  refine ⟨fun slot b => ?_, fun slot s => ?_, fun slot t => ?_, ?_, ?_, ?_⟩ <;>
    simp [SetConstantBuffer, SetSampler, SetTexture, GetResource_DescriptorSetLayout,
      GetResource_DescriptorSet, GetDynamicOffsets, h]

/-- Witness for C3 at a concrete cache state with no current layout. -/
theorem C3_null_layout_guards_witness :
    SetConstantBuffer ⟨2048, 100, 0, [], none, ""⟩ 2 7 = (⟨2048, 100, 0, [], none, ""⟩, true) ∧
    GetDynamicOffsets ⟨2048, 100, 0, [], none, ""⟩ = [] :=
  ⟨(C3_null_layout_guards ⟨2048, 100, 0, [], none, ""⟩ rfl).1 2 7,
   (C3_null_layout_guards ⟨2048, 100, 0, [], none, ""⟩ rfl).2.2.2.2.2⟩

/-- The merge key of a descriptor: the `(type, slot)` pair the merge loop
compares. -/
def dkey (d : RHI_Descriptor) : RHI_Descriptor_Type × Nat := (d.type, d.slot)

/-- First descriptor with the given merge key (the order the C++ inner
loop scans in). -/
def findKey (k : RHI_Descriptor_Type × Nat) (l : List RHI_Descriptor) : Option RHI_Descriptor :=
  l.find? (fun d => decide (dkey d = k))

theorem dkey_eq_iff (d dr : RHI_Descriptor) :
    dkey d = dkey dr ↔ (d.type = dr.type ∧ d.slot = dr.slot) := by
  simp [dkey, Prod.ext_iff]

theorem update_existing_none_iff (acc : List RHI_Descriptor) (dr : RHI_Descriptor) :
    update_existing acc dr = none ↔ ∀ d ∈ acc, dkey d ≠ dkey dr := by
  induction acc with
  | nil => simp [update_existing]
  | cons d rest ih =>
    by_cases h : d.type = dr.type ∧ d.slot = dr.slot
    · simp [update_existing, h, dkey_eq_iff]
    · have hkd : dkey d ≠ dkey dr := fun hcontra => h ((dkey_eq_iff d dr).mp hcontra)
      simp only [update_existing, if_neg h, Option.map_eq_none', ih, List.mem_cons]
      constructor
      · rintro hall x (rfl | hx)
        · exact hkd
        · exact hall x hx
      · intro hall x hx
        exact hall x (Or.inr hx)

theorem update_existing_some_keys (acc : List RHI_Descriptor) (dr : RHI_Descriptor)
    (l : List RHI_Descriptor) (h : update_existing acc dr = some l) :
    l.map dkey = acc.map dkey := by
  induction acc generalizing l with
  | nil => simp [update_existing] at h
  | cons d rest ih =>
    by_cases hc : d.type = dr.type ∧ d.slot = dr.slot
    · simp only [update_existing, if_pos hc, Option.some.injEq] at h
      subst h
      simp [dkey]
    · simp only [update_existing, if_neg hc, Option.map_eq_some'] at h
      obtain ⟨l2, hl2, rfl⟩ := h
      simp [ih l2 hl2]

theorem update_existing_hit (acc : List RHI_Descriptor) (dr e : RHI_Descriptor)
    (he : findKey (dkey dr) acc = some e) :
    ∃ l, update_existing acc dr = some l ∧
      findKey (dkey dr) l = some ⟨e.type, e.slot, e.stage ||| dr.stage⟩ ∧
      (∀ k, k ≠ dkey dr → findKey k l = findKey k acc) := by
  induction acc generalizing e with
  | nil => simp [findKey] at he
  | cons d rest ih =>
    by_cases hc : d.type = dr.type ∧ d.slot = dr.slot
    · have hk : dkey d = dkey dr := (dkey_eq_iff d dr).mpr hc
      have hde : d = e := by
        simpa [findKey, List.find?_cons, hk] using he
      subst hde
      refine ⟨{ d with stage := d.stage ||| dr.stage } :: rest,
        by simp [update_existing, hc], ?_, ?_⟩
      · have h1 : dkey { d with stage := d.stage ||| dr.stage } = dkey dr := hk
        simp [findKey, List.find?_cons, h1]
      · intro k hkne
        have h1 : dkey { d with stage := d.stage ||| dr.stage } = dkey d := rfl
        by_cases hdk : dkey d = k
        · exact absurd (hdk ▸ hk) hkne
        · simp [findKey, List.find?_cons, h1, hdk]
    · have hk : dkey d ≠ dkey dr := fun hcontra => hc ((dkey_eq_iff d dr).mp hcontra)
      have he2 : findKey (dkey dr) rest = some e := by
        simpa [findKey, List.find?_cons, hk] using he
      obtain ⟨l, hl, hfind, hother⟩ := ih e he2
      refine ⟨d :: l, by simp [update_existing, hc, hl], ?_, ?_⟩
      · simp [findKey, List.find?_cons, hk]
        simpa [findKey] using hfind
      · intro k hkne
        by_cases hdk : dkey d = k
        · simp [findKey, List.find?_cons, hdk]
        · simp only [findKey, List.find?_cons] at hother ⊢
          simp [hdk, hother k hkne]

theorem merge_descriptor_of_fresh (acc : List RHI_Descriptor) (dr : RHI_Descriptor)
    (h : ∀ d ∈ acc, dkey d ≠ dkey dr) :
    merge_descriptor acc dr = acc ++ [dr] := by
  simp [merge_descriptor, (update_existing_none_iff acc dr).mpr h]

theorem merge_descriptor_keys_nodup (acc : List RHI_Descriptor) (dr : RHI_Descriptor)
    (h : (acc.map dkey).Nodup) : ((merge_descriptor acc dr).map dkey).Nodup := by
  rcases hu : update_existing acc dr with - | l
  · rw [merge_descriptor_of_fresh acc dr ((update_existing_none_iff acc dr).mp hu)]
    rw [List.map_append]
    simp only [List.map_cons, List.map_nil]
    rw [List.nodup_append]
    exact ⟨h, List.nodup_singleton _,
      by simpa using (update_existing_none_iff acc dr).mp hu⟩
  · simpa [merge_descriptor, hu, update_existing_some_keys acc dr l hu] using h

theorem foldl_merge_keys_nodup (pd acc : List RHI_Descriptor)
    (h : (acc.map dkey).Nodup) : ((pd.foldl merge_descriptor acc).map dkey).Nodup := by
  induction pd generalizing acc with
  | nil => exact h
  | cons dp rest ih => exact ih _ (merge_descriptor_keys_nodup acc dp h)

theorem merge_descriptor_find_other (acc : List RHI_Descriptor) (dr : RHI_Descriptor)
    (k : RHI_Descriptor_Type × Nat) (hk : k ≠ dkey dr) :
    findKey k (merge_descriptor acc dr) = findKey k acc := by
  rcases hu : update_existing acc dr with - | l
  · rw [merge_descriptor_of_fresh acc dr ((update_existing_none_iff acc dr).mp hu)]
    unfold findKey
    rw [List.find?_append]
    rcases hf : List.find? (fun d => decide (dkey d = k)) acc with - | e
    · simp [hk.symm]
    · simp
  · rcases hf : findKey (dkey dr) acc with - | e
    · exfalso
      have hall : ∀ d ∈ acc, dkey d ≠ dkey dr := by
        intro d hd
        have hne := List.find?_eq_none.mp hf d hd
        simpa using hne
      rw [(update_existing_none_iff acc dr).mpr hall] at hu
      cases hu
    · obtain ⟨l2, hl2, -, hother⟩ := update_existing_hit acc dr e hf
      rw [hl2] at hu
      cases hu
      simp [merge_descriptor, hl2, hother k hk]

theorem foldl_merge_find_untouched (pd acc : List RHI_Descriptor)
    (k : RHI_Descriptor_Type × Nat) (h : ∀ d ∈ pd, dkey d ≠ k) :
    findKey k (pd.foldl merge_descriptor acc) = findKey k acc := by
  induction pd generalizing acc with
  | nil => rfl
  | cons dp rest ih =>
    have hk : k ≠ dkey dp := fun hcontra => h dp (List.mem_cons_self dp rest) hcontra.symm
    rw [List.foldl_cons, ih (merge_descriptor acc dp) (fun d hd => h d (List.mem_cons_of_mem dp hd)),
      merge_descriptor_find_other acc dp k hk]

theorem foldl_merge_find_hit (l1 l2 acc : List RHI_Descriptor) (dp e : RHI_Descriptor)
    (h1 : ∀ d ∈ l1, dkey d ≠ dkey dp) (h2 : ∀ d ∈ l2, dkey d ≠ dkey dp)
    (he : findKey (dkey dp) acc = some e) :
    findKey (dkey dp) ((l1 ++ dp :: l2).foldl merge_descriptor acc) =
      some ⟨e.type, e.slot, e.stage ||| dp.stage⟩ := by
  rw [List.foldl_append, List.foldl_cons]
  have hacc1 : findKey (dkey dp) (l1.foldl merge_descriptor acc) = some e := by
    rw [foldl_merge_find_untouched l1 acc (dkey dp) h1, he]
  obtain ⟨l, hl, hfind, -⟩ := update_existing_hit (l1.foldl merge_descriptor acc) dp e hacc1
  have hmerge : merge_descriptor (l1.foldl merge_descriptor acc) dp = l := by
    simp [merge_descriptor, hl]
  rw [hmerge, foldl_merge_find_untouched l2 l (dkey dp) h2, hfind]

theorem findKey_of_nodup (vd : List RHI_Descriptor) (dv : RHI_Descriptor)
    (hn : (vd.map dkey).Nodup) (hm : dv ∈ vd) : findKey (dkey dv) vd = some dv := by
  induction vd with
  | nil => cases hm
  | cons d rest ih =>
    rcases List.mem_cons.mp hm with rfl | hrest
    · simp [findKey, List.find?_cons]
    · have hn2 : (rest.map dkey).Nodup := (List.nodup_cons.mp hn).2
      have hne : dkey d ≠ dkey dv := by
        intro hcontra
        exact (List.nodup_cons.mp hn).1 (hcontra ▸ List.mem_map_of_mem dkey hrest)
      simp only [findKey, List.find?_cons]
      simp [hne]
      simpa [findKey] using ih hn2 hrest

theorem findKey_mem (k : RHI_Descriptor_Type × Nat) (l : List RHI_Descriptor)
    (e : RHI_Descriptor) (h : findKey k l = some e) : e ∈ l ∧ dkey e = k := by
  refine ⟨List.mem_of_find?_eq_some h, ?_⟩
  have := List.find?_some h
  simpa using this

theorem convert_dynamic_slot (dyn : Int) (shift : Nat) (d : RHI_Descriptor) :
    (convert_dynamic dyn shift d).slot = d.slot := by
  unfold convert_dynamic
  split <;> rfl

theorem convert_dynamic_stage (dyn : Int) (shift : Nat) (d : RHI_Descriptor) :
    (convert_dynamic dyn shift d).stage = d.stage := by
  unfold convert_dynamic
  split <;> rfl

theorem convert_dynamic_type (dyn : Int) (shift : Nat) (d : RHI_Descriptor) :
    (convert_dynamic dyn shift d).type = d.type ∨
      (d.type = RHI_Descriptor_Type.ConstantBuffer ∧
        (convert_dynamic dyn shift d).type = RHI_Descriptor_Type.ConstantBufferDynamic) := by
  unfold convert_dynamic
  by_cases hc : d.type = RHI_Descriptor_Type.ConstantBuffer ∧ (d.slot : Int) = dyn + shift
  · exact Or.inr ⟨hc.1, by simp [hc]⟩
  · exact Or.inl (by simp [hc])

theorem apply_dynamic_slot_mem (dyn : Int) (shift : Nat) (l : List RHI_Descriptor)
    (d : RHI_Descriptor) (hd : d ∈ l) :
    ∃ e ∈ apply_dynamic_slot dyn shift l, e.slot = d.slot ∧ e.stage = d.stage ∧
      (e.type = d.type ∨ (d.type = RHI_Descriptor_Type.ConstantBuffer ∧
        e.type = RHI_Descriptor_Type.ConstantBufferDynamic)) := by
  unfold apply_dynamic_slot
  by_cases hdyn : dyn = -1
  · exact ⟨d, by simp [hdyn, hd], rfl, rfl, Or.inl rfl⟩
  · refine ⟨convert_dynamic dyn shift d, ?_, convert_dynamic_slot dyn shift d,
      convert_dynamic_stage dyn shift d, convert_dynamic_type dyn shift d⟩
    rw [if_neg hdyn]
    exact List.mem_map_of_mem (convert_dynamic dyn shift) hd

theorem apply_dynamic_slot_keys_nodup (dyn : Int) (shift : Nat) (l : List RHI_Descriptor)
    (hnd : ∀ d ∈ l, d.type ≠ RHI_Descriptor_Type.ConstantBufferDynamic)
    (hn : (l.map dkey).Nodup) : ((apply_dynamic_slot dyn shift l).map dkey).Nodup := by
  unfold apply_dynamic_slot
  by_cases hdyn : dyn = -1
  · simpa [hdyn] using hn
  · rw [if_neg hdyn]
    have hl : l.Nodup := hn.of_map
    have hinj := List.inj_on_of_nodup_map hn
    have hkey : ∀ x ∈ l, ∀ y ∈ l,
        dkey (convert_dynamic dyn shift x) = dkey (convert_dynamic dyn shift y) → x = y := by
      intro x0 hx0 y0 hy0 hfeq
      have hky : dkey x0 = dkey y0 := by
        by_cases hcx : x0.type = RHI_Descriptor_Type.ConstantBuffer ∧
            (x0.slot : Int) = dyn + shift <;>
          by_cases hcy : y0.type = RHI_Descriptor_Type.ConstantBuffer ∧
              (y0.slot : Int) = dyn + shift
        · simp only [convert_dynamic, if_pos hcx, if_pos hcy, dkey, Prod.mk.injEq] at hfeq
          simp [dkey, Prod.ext_iff, hcx.1, hcy.1, hfeq.2]
        · simp only [convert_dynamic, if_pos hcx, if_neg hcy, dkey, Prod.mk.injEq] at hfeq
          exact absurd hfeq.1.symm (hnd y0 hy0)
        · simp only [convert_dynamic, if_neg hcx, if_pos hcy, dkey, Prod.mk.injEq] at hfeq
          exact absurd hfeq.1 (hnd x0 hx0)
        · simpa only [convert_dynamic, if_neg hcx, if_neg hcy] using hfeq
      exact hinj hx0 hy0 hky
    refine List.Nodup.map_on ?_ (List.Nodup.map_on ?_ hl)
    · intro x hx y hy hfeq
      obtain ⟨x0, hx0, rfl⟩ := List.mem_map.mp hx
      obtain ⟨y0, hy0, rfl⟩ := List.mem_map.mp hy
      rw [hkey x0 hx0 y0 hy0 hfeq]
    · intro x hx y hy hconv
      exact hkey x hx y hy (congrArg dkey hconv)

theorem foldl_merge_no_dynamic (pd : List RHI_Descriptor) (acc : List RHI_Descriptor)
    (ha : ∀ d ∈ acc, d.type ≠ RHI_Descriptor_Type.ConstantBufferDynamic)
    (hp : ∀ d ∈ pd, d.type ≠ RHI_Descriptor_Type.ConstantBufferDynamic) :
    ∀ d ∈ pd.foldl merge_descriptor acc, d.type ≠ RHI_Descriptor_Type.ConstantBufferDynamic := by
  induction pd generalizing acc with
  | nil => exact ha
  | cons dp rest ih =>
    refine ih (merge_descriptor acc dp) ?_ (fun d hd => hp d (List.mem_cons_of_mem dp hd))
    intro d hd
    rcases hu : update_existing acc dp with - | l
    · rw [merge_descriptor_of_fresh acc dp ((update_existing_none_iff acc dp).mp hu)] at hd
      rcases List.mem_append.mp hd with hda | hdp
      · exact ha d hda
      · have : d = dp := by simpa using hdp
        exact this ▸ hp dp (List.mem_cons_self dp rest)
    · rw [show merge_descriptor acc dp = l from by simp [merge_descriptor, hu]] at hd
      have hkeys := update_existing_some_keys acc dp l hu
      have : dkey d ∈ acc.map dkey := hkeys ▸ List.mem_map_of_mem dkey hd
      obtain ⟨d0, hd0, hk0⟩ := List.mem_map.mp this
      have htype : d0.type = d.type := ((dkey_eq_iff d0 d).mp hk0).1
      exact htype ▸ ha d0 hd0

theorem find_layout_append_of_none (k : Nat) (l1 l2 : List (Nat × RHI_DescriptorSetLayout))
    (h : find_layout k l1 = none) : find_layout k (l1 ++ l2) = find_layout k l2 := by
  induction l1 with
  | nil => rfl
  | cons p rest ih =>
    obtain ⟨kk, L⟩ := p
    by_cases hk : kk = k
    · simp [find_layout, hk] at h
    · simp only [find_layout, if_neg hk] at h ⊢
      exact ih h

theorem find_layout_update_self (k : Nat) (f : RHI_DescriptorSetLayout → RHI_DescriptorSetLayout)
    (l : List (Nat × RHI_DescriptorSetLayout)) :
    find_layout k (update_layout k f l) = (find_layout k l).map f := by
  induction l with
  | nil => rfl
  | cons p rest ih =>
    obtain ⟨kk, L⟩ := p
    by_cases hk : kk = k
    · simp [find_layout, update_layout, hk]
    · simp [find_layout, update_layout, hk, ih]

theorem update_layout_update_layout (k : Nat)
    (f g : RHI_DescriptorSetLayout → RHI_DescriptorSetLayout)
    (l : List (Nat × RHI_DescriptorSetLayout)) :
    update_layout k f (update_layout k g l) = update_layout k (fun L => f (g L)) l := by
  induction l with
  | nil => rfl
  | cons p rest ih =>
    obtain ⟨kk, L⟩ := p
    by_cases hk : kk = k
    · simp [update_layout, hk]
    · simp [update_layout, hk, ih]

/-- The layout created by `SetPipelineState` on a hash miss. -/
def fresh_layout (st : RHI_DescriptorCache) (ps : RHI_PipelineState) : RHI_DescriptorSetLayout :=
  ⟨st.next_layout_object_id, GenerateDescriptors st.shader_shift_buffer ps, 0, false, [], [], [], []⟩

theorem setPipelineState_of_found (st : RHI_DescriptorCache) (ps : RHI_PipelineState)
    (L : RHI_DescriptorSetLayout)
    (h : find_layout (shaderPairHash ps) st.descriptor_set_layouts = some L) :
    SetPipelineState st ps =
      { st with
        name := pair_name ps
        descriptor_layout_current := some (shaderPairHash ps)
        descriptor_set_layouts :=
          update_layout (shaderPairHash ps) (fun L => { L with needs_to_bind := true })
            st.descriptor_set_layouts } := by
  simp [SetPipelineState, h]

theorem setPipelineState_of_missing (st : RHI_DescriptorCache) (ps : RHI_PipelineState)
    (h : find_layout (shaderPairHash ps) st.descriptor_set_layouts = none) :
    SetPipelineState st ps =
      { st with
        name := pair_name ps
        next_layout_object_id := st.next_layout_object_id + 1
        descriptor_layout_current := some (shaderPairHash ps)
        descriptor_set_layouts :=
          update_layout (shaderPairHash ps) (fun L => { L with needs_to_bind := true })
            (st.descriptor_set_layouts ++ [(shaderPairHash ps, fresh_layout st ps)]) } := by
  simp [SetPipelineState, h, fresh_layout]

theorem needs_to_bind_idem :
    (fun L : RHI_DescriptorSetLayout =>
        { { L with needs_to_bind := true } with needs_to_bind := true }) =
      (fun L : RHI_DescriptorSetLayout => { L with needs_to_bind := true }) := by
  funext L
  rfl

theorem setPipelineState_idem (st : RHI_DescriptorCache) (ps : RHI_PipelineState) :
    SetPipelineState (SetPipelineState st ps) ps = SetPipelineState st ps := by
  rcases habs : find_layout (shaderPairHash ps) st.descriptor_set_layouts with - | L0
  · rw [setPipelineState_of_missing st ps habs]
    have hfind : find_layout (shaderPairHash ps)
        (update_layout (shaderPairHash ps) (fun L => { L with needs_to_bind := true })
          (st.descriptor_set_layouts ++ [(shaderPairHash ps, fresh_layout st ps)])) =
        some { fresh_layout st ps with needs_to_bind := true } := by
      rw [find_layout_update_self, find_layout_append_of_none _ _ _ habs]
      simp [find_layout]
    rw [setPipelineState_of_found _ ps _ hfind]
    simp only [update_layout_update_layout, needs_to_bind_idem]
  · rw [setPipelineState_of_found st ps L0 habs]
    have hfind : find_layout (shaderPairHash ps)
        (update_layout (shaderPairHash ps) (fun L => { L with needs_to_bind := true })
          st.descriptor_set_layouts) = some { L0 with needs_to_bind := true } := by
      rw [find_layout_update_self, habs]
      rfl
    rw [setPipelineState_of_found _ ps _ hfind]
    simp only [update_layout_update_layout, needs_to_bind_idem]

/-- C1: requesting the descriptor cache twice with the same shader pair is
idempotent — the second `SetPipelineState` call finds the layout stored
under the pair's hash instead of creating a new one, and the whole cache
state (in particular the selected layout object) is exactly the state
after the first call; on first sight the layout is created with a fresh
object identity holding `GenerateDescriptors`' output; and that merged
descriptor list has pairwise-distinct `(type, slot)` keys, with every
`(type, slot)` pair declared by both shader stages represented by a single
entry whose stage bitmask is the OR of the two stages' masks (its type
possibly rewritten by the dynamic-constant-buffer conversion).  The
hypotheses state that each shader's own reflected descriptor list has no
duplicate `(type, slot)` pair and declares no dynamic constant buffer,
which is what shader reflection produces. -/
theorem C1_descriptor_layout_reuse (st : RHI_DescriptorCache) (ps : RHI_PipelineState)
    (hv : (ps.shader_vertex.descriptors.map dkey).Nodup)
    (hp : ∀ p, ps.shader_pixel = some p → (p.descriptors.map dkey).Nodup)
    (hndv : ∀ d ∈ ps.shader_vertex.descriptors,
      d.type ≠ RHI_Descriptor_Type.ConstantBufferDynamic)
    (hndp : ∀ p, ps.shader_pixel = some p → ∀ d ∈ p.descriptors,
      d.type ≠ RHI_Descriptor_Type.ConstantBufferDynamic) :
    SetPipelineState (SetPipelineState st ps) ps = SetPipelineState st ps ∧
    (SetPipelineState st ps).descriptor_layout_current = some (shaderPairHash ps) ∧
    (find_layout (shaderPairHash ps) st.descriptor_set_layouts = none →
      find_layout (shaderPairHash ps) (SetPipelineState st ps).descriptor_set_layouts =
        some ⟨st.next_layout_object_id, GenerateDescriptors st.shader_shift_buffer ps,
          0, true, [], [], [], []⟩) ∧
    ((GenerateDescriptors st.shader_shift_buffer ps).map dkey).Nodup ∧
    (∀ p, ps.shader_pixel = some p →
      ∀ dv ∈ ps.shader_vertex.descriptors, ∀ dp ∈ p.descriptors, dkey dv = dkey dp →
        ∃ d ∈ GenerateDescriptors st.shader_shift_buffer ps,
          d.slot = dv.slot ∧ d.stage = dv.stage ||| dp.stage ∧
          (d.type = dv.type ∨ (dv.type = RHI_Descriptor_Type.ConstantBuffer ∧
            d.type = RHI_Descriptor_Type.ConstantBufferDynamic))) := by
  refine ⟨setPipelineState_idem st ps, ?_, ?_, ?_, ?_⟩
  · rcases h : find_layout (shaderPairHash ps) st.descriptor_set_layouts with - | L
    · rw [setPipelineState_of_missing st ps h]
    · rw [setPipelineState_of_found st ps L h]
  · intro h
    rw [setPipelineState_of_missing st ps h]
    show find_layout (shaderPairHash ps)
        (update_layout (shaderPairHash ps) (fun L => { L with needs_to_bind := true })
          (st.descriptor_set_layouts ++ [(shaderPairHash ps, fresh_layout st ps)])) = _
    rw [find_layout_update_self, find_layout_append_of_none _ _ _ h]
    simp [find_layout, fresh_layout]
  · rcases hps : ps.shader_pixel with - | p
    · have hgen : GenerateDescriptors st.shader_shift_buffer ps =
          apply_dynamic_slot ps.dynamic_constant_buffer_slot st.shader_shift_buffer
            ps.shader_vertex.descriptors := by
        simp [GenerateDescriptors, hps]
      rw [hgen]
      exact apply_dynamic_slot_keys_nodup _ _ _ hndv hv
    · have hgen : GenerateDescriptors st.shader_shift_buffer ps =
          apply_dynamic_slot ps.dynamic_constant_buffer_slot st.shader_shift_buffer
            (p.descriptors.foldl merge_descriptor ps.shader_vertex.descriptors) := by
        simp [GenerateDescriptors, hps]
      rw [hgen]
      exact apply_dynamic_slot_keys_nodup _ _ _
        (foldl_merge_no_dynamic p.descriptors ps.shader_vertex.descriptors hndv (hndp p hps))
        (foldl_merge_keys_nodup p.descriptors ps.shader_vertex.descriptors hv)
  · intro p hps dv hdv dp hdp hkeq
    have hgen : GenerateDescriptors st.shader_shift_buffer ps =
        apply_dynamic_slot ps.dynamic_constant_buffer_slot st.shader_shift_buffer
          (p.descriptors.foldl merge_descriptor ps.shader_vertex.descriptors) := by
      simp [GenerateDescriptors, hps]
    have hfounddv : findKey (dkey dp) ps.shader_vertex.descriptors = some dv := by
      rw [← hkeq]
      exact findKey_of_nodup ps.shader_vertex.descriptors dv hv hdv
    obtain ⟨s, t, hst⟩ := List.append_of_mem hdp
    have hpn := hp p hps
    rw [hst, List.map_append, List.map_cons] at hpn
    obtain ⟨hA, hB, hC⟩ := List.nodup_append.mp hpn
    have h1 : ∀ d ∈ s, dkey d ≠ dkey dp := by
      intro d hd hcontra
      exact hC (List.mem_map_of_mem dkey hd) (by rw [hcontra]; exact List.mem_cons_self _ _)
    have h2 : ∀ d ∈ t, dkey d ≠ dkey dp := by
      intro d hd hcontra
      exact (List.nodup_cons.mp hB).1 (hcontra ▸ List.mem_map_of_mem dkey hd)
    have hfind : findKey (dkey dp)
        (p.descriptors.foldl merge_descriptor ps.shader_vertex.descriptors) =
        some ⟨dv.type, dv.slot, dv.stage ||| dp.stage⟩ := by
      rw [hst]
      exact foldl_merge_find_hit s t ps.shader_vertex.descriptors dp dv h1 h2 hfounddv
    have hmem := (findKey_mem _ _ _ hfind).1
    obtain ⟨e, hemem, heslot, hestage, hetype⟩ :=
      apply_dynamic_slot_mem ps.dynamic_constant_buffer_slot st.shader_shift_buffer _ _ hmem
    rw [hgen]
    exact ⟨e, hemem, heslot, hestage, hetype⟩

/-- Witness for C1: a concrete cache and shader pair — the vertex shader
declares `(ConstantBuffer, 0)` and `(Texture, 5)`, the pixel shader
declares `(ConstantBuffer, 0)` and `(Sampler, 3)`. -/
theorem C1_descriptor_layout_reuse_witness :
    SetPipelineState
        (SetPipelineState ⟨2048, 100, 0, [], none, ""⟩
          ⟨⟨1, "v", [⟨RHI_Descriptor_Type.ConstantBuffer, 0, 1⟩,
            ⟨RHI_Descriptor_Type.Texture, 5, 1⟩]⟩,
           some ⟨2, "p", [⟨RHI_Descriptor_Type.ConstantBuffer, 0, 2⟩,
            ⟨RHI_Descriptor_Type.Sampler, 3, 2⟩]⟩, -1⟩)
        ⟨⟨1, "v", [⟨RHI_Descriptor_Type.ConstantBuffer, 0, 1⟩,
          ⟨RHI_Descriptor_Type.Texture, 5, 1⟩]⟩,
         some ⟨2, "p", [⟨RHI_Descriptor_Type.ConstantBuffer, 0, 2⟩,
          ⟨RHI_Descriptor_Type.Sampler, 3, 2⟩]⟩, -1⟩ =
      SetPipelineState ⟨2048, 100, 0, [], none, ""⟩
        ⟨⟨1, "v", [⟨RHI_Descriptor_Type.ConstantBuffer, 0, 1⟩,
          ⟨RHI_Descriptor_Type.Texture, 5, 1⟩]⟩,
         some ⟨2, "p", [⟨RHI_Descriptor_Type.ConstantBuffer, 0, 2⟩,
          ⟨RHI_Descriptor_Type.Sampler, 3, 2⟩]⟩, -1⟩ :=
  (C1_descriptor_layout_reuse ⟨2048, 100, 0, [], none, ""⟩
    ⟨⟨1, "v", [⟨RHI_Descriptor_Type.ConstantBuffer, 0, 1⟩,
      ⟨RHI_Descriptor_Type.Texture, 5, 1⟩]⟩,
     some ⟨2, "p", [⟨RHI_Descriptor_Type.ConstantBuffer, 0, 2⟩,
      ⟨RHI_Descriptor_Type.Sampler, 3, 2⟩]⟩, -1⟩
    (by decide) (by decide) (by decide) (by decide)).1

/-! ## Renderable sorting (`Renderer::RenderablesSort`) -/

/-- The per-entity data `render_hash` reads: whether the entity has a
renderable and a material, the squared distance of its bounding-box centre
from the camera (`LengthSquared`, a float in C++, abstracted to a natural
number whose decimal digits are what `std::to_string` prints — the
`".000000"` fraction suffix printed for a whole-valued float parses back
to nothing), and the material id. -/
structure RenderEntity where
  id : Nat
  has_renderable : Bool
  has_material : Bool
  depth_sq : Nat
  material_id : Nat
deriving DecidableEq, Repr

/-- Digit-prefix parser modelling `std::stof` on the strings `render_hash`
builds: it accumulates leading decimal digits and stops at the first
non-digit character (in particular at the `'-'` separator the C++ code
inserts between the depth and the material id). -/
def parseDigits : Nat → List Char → Nat
  | acc, [] => acc
  | acc, c :: cs => if c.isDigit then parseDigits (acc * 10 + (c.toNat - 48)) cs else acc

/-- `std::stof` applied to the hash string (value, not reference). -/
def stof_model (s : String) : Nat := parseDigits 0 s.data

/-- The decimal digits of a natural number, most significant first
(empty for zero; `to_string_model` handles that case). -/
def natDigits : Nat → List Char
  | 0 => []
  | n + 1 => natDigits ((n + 1) / 10) ++ [Char.ofNat ((n + 1) % 10 + 48)]
decreasing_by exact Nat.div_lt_self (Nat.succ_pos n) (by norm_num)

/-- `std::to_string` on the abstracted numeric value. -/
def to_string_model (n : Nat) : String := if n = 0 then "0" else ⟨natDigits n⟩

/-- `render_hash` from `Renderer::RenderablesSort`: `0.0f` for an entity
without renderable or material, otherwise
`stof(to_string(num_depth) + "-" + to_string(num_material))`. -/
def render_hash (e : RenderEntity) : Nat :=
  if !e.has_renderable then 0
  else if !e.has_material then 0
  else stof_model (to_string_model e.depth_sq ++ "-" ++ to_string_model e.material_id)

/-- `Renderer::RenderablesSort`: return unchanged when there is no camera
or the list has at most two entries; otherwise sort by `render_hash`
(`std::sort` with the strict comparator `render_hash a < render_hash b`
produces some permutation that is non-decreasing in the hash, modelled by
`List.mergeSort` under the matching `≤` relation). -/
def render_le (a b : RenderEntity) : Bool := decide (render_hash a ≤ render_hash b)

def RenderablesSort (has_camera : Bool) (renderables : List RenderEntity) : List RenderEntity :=
  if has_camera = false ∨ renderables.length ≤ 2 then renderables
  else renderables.mergeSort render_le

theorem digitChar_isDigit (r : Nat) (h : r < 10) : (Char.ofNat (r + 48)).isDigit = true := by
  interval_cases r <;> decide

theorem digitChar_toNat (r : Nat) (h : r < 10) : (Char.ofNat (r + 48)).toNat = r + 48 := by
  interval_cases r <;> decide

theorem parseDigits_natDigits (n : Nat) : ∀ acc rest,
    parseDigits acc (natDigits n ++ rest) =
      parseDigits (acc * 10 ^ (natDigits n).length + n) rest := by
  induction n using Nat.strong_induction_on with
  | _ n ih =>
    match n with
    | 0 =>
      intro acc rest
      simp [natDigits, parseDigits]
    | m + 1 =>
      intro acc rest
      have hq : (m + 1) / 10 < m + 1 := Nat.div_lt_self (Nat.succ_pos m) (by norm_num)
      have hr : (m + 1) % 10 < 10 := Nat.mod_lt _ (by norm_num)
      rw [show natDigits (m + 1) =
          natDigits ((m + 1) / 10) ++ [Char.ofNat ((m + 1) % 10 + 48)] from by
        rw [natDigits]]
      rw [List.append_assoc, ih ((m + 1) / 10) hq acc _]
      rw [List.singleton_append]
      rw [show parseDigits (acc * 10 ^ (natDigits ((m + 1) / 10)).length + (m + 1) / 10)
            (Char.ofNat ((m + 1) % 10 + 48) :: rest) =
          parseDigits ((acc * 10 ^ (natDigits ((m + 1) / 10)).length + (m + 1) / 10) * 10 +
            ((Char.ofNat ((m + 1) % 10 + 48)).toNat - 48)) rest from by
        rw [parseDigits]
        rw [if_pos (digitChar_isDigit _ hr)]]
      rw [digitChar_toNat _ hr]
      congr 1
      have hsub : (m + 1) % 10 + 48 - 48 = (m + 1) % 10 := by omega
      rw [hsub]
      rw [List.length_append, List.length_singleton]
      have hqr : (m + 1) / 10 * 10 + (m + 1) % 10 = m + 1 := by omega
      have hexp : (acc * 10 ^ (natDigits ((m + 1) / 10)).length + (m + 1) / 10) * 10 +
          (m + 1) % 10 =
          acc * (10 ^ (natDigits ((m + 1) / 10)).length * 10) +
            ((m + 1) / 10 * 10 + (m + 1) % 10) := by
        ring
      rw [hexp, hqr, ← pow_succ]

theorem stof_round (d m : Nat) :
    stof_model (to_string_model d ++ "-" ++ to_string_model m) = d := by
  have hdata : (to_string_model d ++ "-" ++ to_string_model m).data =
      (to_string_model d).data ++ ('-' :: (to_string_model m).data) := by
    simp [String.data_append]
  rcases Nat.eq_zero_or_pos d with rfl | hd
  · rw [stof_model, hdata]
    show parseDigits 0 ((to_string_model 0).data ++ ('-' :: (to_string_model m).data)) = 0
    rw [show (to_string_model 0).data = ['0'] from rfl]
    rw [show (['0'] ++ ('-' :: (to_string_model m).data)) =
        '0' :: '-' :: (to_string_model m).data from rfl]
    rw [parseDigits, if_pos (by decide)]
    rw [show (0 * 10 + ('0'.toNat - 48)) = 0 from by decide]
    rw [parseDigits, if_neg (by decide)]
  · rw [stof_model, hdata]
    have hds : (to_string_model d).data = natDigits d := by
      rw [to_string_model, if_neg (Nat.pos_iff_ne_zero.mp hd)]
    rw [hds, parseDigits_natDigits d 0 _]
    rw [parseDigits, if_neg (by decide)]
    simp

theorem render_hash_eq_depth (e : RenderEntity)
    (h1 : e.has_renderable = true) (h2 : e.has_material = true) :
    render_hash e = e.depth_sq := by
  rw [render_hash, h1, h2]
  simp [stof_round]

/-- C7 counterexample: with a camera present, a two-entity opaque list
whose first entity is farther from the camera (squared distance 100) than
the second (squared distance 5) is returned by `RenderablesSort`
completely unchanged (the code returns early for `size() <= 2`), so after
acquisition this opaque list is not sorted front-to-back. -/
theorem C7_sort_counterexample :
    RenderablesSort true [⟨1, true, true, 100, 1⟩, ⟨2, true, true, 5, 1⟩] =
      [⟨1, true, true, 100, 1⟩, ⟨2, true, true, 5, 1⟩] ∧
    ¬ (List.Pairwise (fun a b : RenderEntity => a.depth_sq ≤ b.depth_sq)
        [⟨1, true, true, 100, 1⟩, ⟨2, true, true, 5, 1⟩]) := by
  constructor
  · rw [RenderablesSort, if_pos (by simp)]
  · decide

/-- C7 (amended): with a camera and more than two entities, each of which
has a renderable and a material, `RenderablesSort` returns a permutation
of its input that is non-decreasing in the squared distance of the
bounding-box centre from the camera; the material id does not participate
in the order because `stof` stops parsing the key string at the `'-'`
separator, so the sort key equals the squared distance alone; lists of at
most two entities are always returned unchanged. -/
theorem C7_renderables_sorted (has_camera : Bool) (l : List RenderEntity)
    (hc : has_camera = true) (hlen : 2 < l.length)
    (hall : ∀ e ∈ l, e.has_renderable = true ∧ e.has_material = true) :
    (RenderablesSort has_camera l).Perm l ∧
    List.Pairwise (fun a b : RenderEntity => a.depth_sq ≤ b.depth_sq)
      (RenderablesSort has_camera l) ∧
    (∀ e ∈ l, render_hash e = e.depth_sq) ∧
    (∀ l2 : List RenderEntity, l2.length ≤ 2 → RenderablesSort has_camera l2 = l2) := by
  have hcond : ¬ (has_camera = false ∨ l.length ≤ 2) := by
    rintro (h1 | h2)
    · rw [hc] at h1
      cases h1
    · omega
  have hsort : RenderablesSort has_camera l = l.mergeSort render_le := by
    rw [RenderablesSort, if_neg hcond]
  refine ⟨?_, ?_, fun e he => render_hash_eq_depth e (hall e he).1 (hall e he).2,
    fun l2 h2 => by rw [RenderablesSort, if_pos (Or.inr h2)]⟩
  · rw [hsort]
    exact List.mergeSort_perm l _
  · rw [hsort]
    have htrans : ∀ a b c : RenderEntity, render_le a b → render_le b c → render_le a c := by
      intro a b c hab hbc
      simp only [render_le, decide_eq_true_eq] at *
      omega
    have htotal : ∀ a b : RenderEntity, render_le a b || render_le b a := by
      intro a b
      simp only [render_le, Bool.or_eq_true, decide_eq_true_eq]
      omega
    have hpw := List.sorted_mergeSort htrans htotal l
    refine List.Pairwise.imp_of_mem ?_ hpw
    intro a b ha hb hab
    have ha2 := hall a (List.mem_mergeSort.mp ha)
    have hb2 := hall b (List.mem_mergeSort.mp hb)
    rw [← render_hash_eq_depth a ha2.1 ha2.2, ← render_hash_eq_depth b hb2.1 hb2.2]
    simpa [render_le] using hab

/-- Witness for C7's amended theorem at a concrete three-entity list. -/
theorem C7_renderables_sorted_witness :
    List.Pairwise (fun a b : RenderEntity => a.depth_sq ≤ b.depth_sq)
      (RenderablesSort true
        [⟨1, true, true, 100, 1⟩, ⟨2, true, true, 5, 1⟩, ⟨3, true, true, 40, 2⟩]) :=
  (C7_renderables_sorted true
    [⟨1, true, true, 100, 1⟩, ⟨2, true, true, 5, 1⟩, ⟨3, true, true, 40, 2⟩]
    rfl (by decide) (by decide)).2.1

/-! ## Post-process chain (`Renderer::Pass_PostProcess`) -/

/-- The render options `Pass_PostProcess` consults: one bit per optional
stage (from the `m_options` bitmask) plus the tone-mapping option value
(a float enum code in `m_option_values`, compared against `0`; modelled as
a natural number since only `!= 0` is tested). -/
structure PPOptions where
  taa : Bool
  motion_blur : Bool
  bloom : Bool
  dithering : Bool
  fxaa : Bool
  sharpen : Bool
  chromatic_aberration : Bool
  tonemapping_value : Nat
deriving DecidableEq, Repr

/-- The sub-passes `Pass_PostProcess` can invoke, in source order. -/
inductive PPStage
  | taa
  | motionBlur
  | bloom
  | toneMapping
  | copy
  | dithering
  | fxaa
  | lumaSharpen
  | chromaticAberration
  | gammaCorrection
deriving DecidableEq, Repr

/-- The four render-target slots the chain ping-pongs
(`Composition_Hdr`, `Composition_Hdr_2`, `Composition_Ldr`,
`Composition_Ldr_2`); each holds a texture identity
(the `shared_ptr` payload that `swap` exchanges). -/
structure PPTextures where
  tex_in_hdr : Nat
  tex_out_hdr : Nat
  tex_in_ldr : Nat
  tex_out_ldr : Nat
deriving DecidableEq, Repr

/-- `tex_in_hdr.swap(tex_out_hdr)`. -/
def ppSwapHdr (t : PPTextures) : PPTextures :=
  { t with tex_in_hdr := t.tex_out_hdr, tex_out_hdr := t.tex_in_hdr }

/-- `tex_in_ldr.swap(tex_out_ldr)`. -/
def ppSwapLdr (t : PPTextures) : PPTextures :=
  { t with tex_in_ldr := t.tex_out_ldr, tex_out_ldr := t.tex_in_ldr }

/-- One `if (GetOption(...)) { Pass_X(cmd_list, tex_in_hdr, tex_out_hdr);
tex_in_hdr.swap(tex_out_hdr); }` block of the chain. -/
def ppHdrStage (cond : Bool) (stage : PPStage)
    (s : List (PPStage × Nat × Nat) × PPTextures) :
    List (PPStage × Nat × Nat) × PPTextures :=
  if cond then (s.1 ++ [(stage, s.2.tex_in_hdr, s.2.tex_out_hdr)], ppSwapHdr s.2) else s

/-- One `if (GetOption(...)) { Pass_X(cmd_list, tex_in_ldr, tex_out_ldr);
tex_in_ldr.swap(tex_out_ldr); }` block of the chain. -/
def ppLdrStage (cond : Bool) (stage : PPStage)
    (s : List (PPStage × Nat × Nat) × PPTextures) :
    List (PPStage × Nat × Nat) × PPTextures :=
  if cond then (s.1 ++ [(stage, s.2.tex_in_ldr, s.2.tex_out_ldr)], ppSwapLdr s.2) else s

/-- The tone-mapping block: `Pass_ToneMapping(tex_in_hdr, tex_in_ldr)`
when the tone-mapping option value is non-zero, otherwise
`Pass_Copy(tex_in_hdr, tex_in_ldr)`; neither branch swaps. -/
def ppToneMapStage (tv : Nat) (s : List (PPStage × Nat × Nat) × PPTextures) :
    List (PPStage × Nat × Nat) × PPTextures :=
  if tv ≠ 0 then (s.1 ++ [(PPStage.toneMapping, s.2.tex_in_hdr, s.2.tex_in_ldr)], s.2)
  else (s.1 ++ [(PPStage.copy, s.2.tex_in_hdr, s.2.tex_in_ldr)], s.2)

/-- `Renderer::Pass_PostProcess`, recording for every invoked sub-pass
the triple (stage, input texture, output texture) and threading the
`swap` calls on the two ping-pong pairs exactly as the source does. -/
def Pass_PostProcess (opts : PPOptions) (t0 : PPTextures) :
    List (PPStage × Nat × Nat) × PPTextures :=
  let s1 := ppHdrStage opts.taa PPStage.taa ([], t0)
  let s2 := ppHdrStage opts.motion_blur PPStage.motionBlur s1
  let s3 := ppHdrStage opts.bloom PPStage.bloom s2
  let s4 := ppToneMapStage opts.tonemapping_value s3
  let s5 := ppLdrStage opts.dithering PPStage.dithering s4
  let s6 := ppLdrStage opts.fxaa PPStage.fxaa s5
  let s7 := ppLdrStage opts.sharpen PPStage.lumaSharpen s6
  let s8 := ppLdrStage opts.chromatic_aberration PPStage.chromaticAberration s7
  (s8.1 ++ [(PPStage.gammaCorrection, s8.2.tex_in_ldr, s8.2.tex_out_ldr)], ppSwapLdr s8.2)

/-- The fixed stage order of the chain as written in the source. -/
def ppOrder : List PPStage :=
  [PPStage.taa, PPStage.motionBlur, PPStage.bloom, PPStage.toneMapping, PPStage.copy,
   PPStage.dithering, PPStage.fxaa, PPStage.lumaSharpen, PPStage.chromaticAberration,
   PPStage.gammaCorrection]

/-- Which stages actually run for a given option set (what the source's
`if`s test): the seven bit-gated stages, tone-mapping gated by the option
value, the copy fallback gated by its negation, and gamma correction
unconditionally. -/
def ppEnabled (opts : PPOptions) : PPStage → Bool
  | PPStage.taa => opts.taa
  | PPStage.motionBlur => opts.motion_blur
  | PPStage.bloom => opts.bloom
  | PPStage.toneMapping => decide (opts.tonemapping_value ≠ 0)
  | PPStage.copy => decide (opts.tonemapping_value = 0)
  | PPStage.dithering => opts.dithering
  | PPStage.fxaa => opts.fxaa
  | PPStage.lumaSharpen => opts.sharpen
  | PPStage.chromaticAberration => opts.chromatic_aberration
  | PPStage.gammaCorrection => true

/-- C8 counterexample: with every render-option bit cleared (and the
tone-mapping value 0) the chain still records two sub-passes — the
HDR-to-LDR copy and gamma correction — so it is not the case that each
stage of `Pass_PostProcess` runs only when a render-option bit for it is
enabled in the options bitmask (gamma correction has no bit at all, and
the copy runs precisely when tone-mapping is off). -/
theorem C8_postprocess_counterexample :
    (Pass_PostProcess ⟨false, false, false, false, false, false, false, 0⟩
        ⟨10, 11, 20, 21⟩).1.map Prod.fst = [PPStage.copy, PPStage.gammaCorrection] ∧
    (Pass_PostProcess ⟨false, false, false, false, false, false, false, 0⟩
        ⟨10, 11, 20, 21⟩).1 ≠ [] := by
  decide

set_option maxHeartbeats 3200000 in
/-- C8 (amended): the sub-passes recorded by `Pass_PostProcess` are
exactly the enabled ones in the fixed source order (TAA, motion blur,
bloom, tone-mapping or its copy fallback, dithering, FXAA, sharpen,
chromatic aberration, gamma correction) — the seven optional stages gated
by their option bits, tone-mapping gated by the tone-mapping value with a
copy replacing it when that value is zero, and gamma correction always
running; each recorded stage's input texture is the output texture of the
previously recorded stage (the ping-pong swap after each stage feeds each
stage's result to the next), and the first recorded stage reads the
original HDR composition input. -/
theorem C8_postprocess_chain (opts : PPOptions) (t0 : PPTextures) :
    (Pass_PostProcess opts t0).1.map Prod.fst = ppOrder.filter (ppEnabled opts) ∧
    List.Chain' (fun e f : PPStage × Nat × Nat => f.2.1 = e.2.2) (Pass_PostProcess opts t0).1 ∧
    ((Pass_PostProcess opts t0).1.head?).map (fun e => e.2.1) = some t0.tex_in_hdr := by
  obtain ⟨otaa, omb, obl, odi, ofx, osh, oca, otv⟩ := opts
  by_cases htv : otv = 0 <;>
    cases otaa <;> cases omb <;> cases obl <;> cases odi <;> cases ofx <;> cases osh <;>
      cases oca <;>
    simp [Pass_PostProcess, ppHdrStage, ppLdrStage, ppToneMapStage, ppSwapHdr, ppSwapLdr,
      ppOrder, ppEnabled, htv, List.Chain']

/-! ## Per-pass skip policy (`Renderer::Pass_LightDepth`,
`Renderer::Pass_DepthPrePass`) -/

/-- Command-list calls a pass records (the granularity the skip policy is
stated at).  `cmd_list->Begin` is modelled as succeeding: both passes
check the shaders they need before building the pipeline state, and
Begin's other failure modes (incompatible render-target sizes) are not
part of the claim. -/
inductive CmdEvent
  | beginPass (pass : String)
  | draw
  | endPass
  | submit
deriving DecidableEq, Repr

/-- What `Pass_LightDepth` reads from a shadow-casting entity: renderable
present, `GetCastShadows`, geometry model with vertex and index buffers,
material present, and the light-frustum test (abstracted to one flag per
entity). -/
structure ShadowCaster where
  has_renderable : Bool
  cast_shadows : Bool
  has_geometry : Bool
  has_material : Bool
  in_frustum : Bool
deriving DecidableEq, Repr

/-- What `Pass_LightDepth` reads from a light entity: the `Light`
component present, shadows enabled, transparent shadows enabled, a depth
texture allocated, and the shadow-map array size. -/
structure ShadowLight where
  has_light : Bool
  shadows_enabled : Bool
  shadows_transparent_enabled : Bool
  has_depth_texture : Bool
  array_size : Nat
deriving DecidableEq, Repr

/-- What `Pass_DepthPrePass` reads from an opaque entity. -/
structure DepthEntity where
  has_renderable : Bool
  has_geometry : Bool
  in_frustum : Bool
deriving DecidableEq, Repr

/-- The draws the inner entity loop of `Pass_LightDepth` emits: one
`DrawIndexed` per entity passing all the `continue` guards. -/
def lightDepthDraws (entities : List ShadowCaster) : List CmdEvent :=
  (entities.filter fun e => e.has_renderable && e.cast_shadows && e.has_geometry &&
    e.has_material && e.in_frustum).map (fun _ => CmdEvent.draw)

/-- The per-light body of `Pass_LightDepth`: skip lights without the
component or with shadows off, skip lights without transparent shadows on
a transparent pass, skip lights without a depth texture; otherwise record
one `Begin` / draws / `End` / `Submit` bracket per shadow-array slice. -/
def lightDepthLightEvents (transparent_pass : Bool) (entities : List ShadowCaster)
    (light : ShadowLight) : List CmdEvent :=
  if light.has_light = false ∨ light.shadows_enabled = false then []
  else if transparent_pass = true ∧ light.shadows_transparent_enabled = false then []
  else if light.has_depth_texture = false then []
  else
    (List.range light.array_size).foldl
      (fun acc _ => acc ++
        (CmdEvent.beginPass (if transparent_pass then "Pass_LightShadowTransparent"
            else "Pass_LightShadow") ::
          lightDepthDraws entities ++ [CmdEvent.endPass, CmdEvent.submit])) []

/-- `Renderer::Pass_LightDepth`: return immediately (no events) when
either depth shader is not compiled or the entity list is empty;
otherwise iterate the lights. -/
def Pass_LightDepth (shader_v_compiled shader_p_compiled : Bool)
    (entities : List ShadowCaster) (lights : List ShadowLight)
    (transparent_pass : Bool) : List CmdEvent :=
  if shader_v_compiled = false ∨ shader_p_compiled = false then []
  else if entities = [] then []
  else
    lights.foldl (fun acc light =>
      acc ++ lightDepthLightEvents transparent_pass entities light) []

/-- The draws of `Pass_DepthPrePass`: one `DrawIndexed` per opaque entity
passing the renderable / geometry / frustum guards. -/
def depthPrePassDraws (entities : List DepthEntity) : List CmdEvent :=
  (entities.filter fun e => e.has_renderable && e.has_geometry && e.in_frustum).map
    (fun _ => CmdEvent.draw)

/-- `Renderer::Pass_DepthPrePass`: return immediately when the depth
vertex shader is not compiled; otherwise `Begin` is recorded, the entity
loop runs only when the list is non-empty, and `End`/`Submit` are always
recorded inside the `Begin` bracket. -/
def Pass_DepthPrePass (shader_compiled : Bool) (entities : List DepthEntity) : List CmdEvent :=
  if shader_compiled = false then []
  else
    CmdEvent.beginPass "Pass_DepthPrePass" ::
      (if entities = [] then [] else depthPrePassDraws entities) ++
        [CmdEvent.endPass, CmdEvent.submit]

/-- C9 counterexample: `Pass_DepthPrePass` with its shader compiled and an
empty input entity list is not skipped entirely — it records `Begin`,
`End` and `Submit` on the command list (only the draws are absent),
contradicting the claim that a pass with an empty input entity list
records no `Begin` and no `Submit`. -/
theorem C9_empty_entities_counterexample :
    Pass_DepthPrePass true [] =
      [CmdEvent.beginPass "Pass_DepthPrePass", CmdEvent.endPass, CmdEvent.submit] ∧
    Pass_DepthPrePass true [] ≠ [] := by
  decide

/-- C9 (amended): a pass whose required shaders are not all compiled
records nothing for the frame (both passes); `Pass_LightDepth` also
records nothing when its entity list is empty; but `Pass_DepthPrePass`
skips entirely only on the shader check — with an empty entity list it
still records `Begin`, `End` and `Submit`, merely without draws, while
with a non-empty list it records its draws inside the same bracket.
(No pass is retried within a frame: the frame schedule `Pass_Main` calls
each pass exactly once per frame.) -/
theorem C9_pass_skip_policy :
    (∀ (sv sp : Bool) (entities : List ShadowCaster) (lights : List ShadowLight) (tp : Bool),
      sv = false ∨ sp = false → Pass_LightDepth sv sp entities lights tp = []) ∧
    (∀ (sv sp : Bool) (lights : List ShadowLight) (tp : Bool),
      Pass_LightDepth sv sp [] lights tp = []) ∧
    (∀ entities : List DepthEntity, Pass_DepthPrePass false entities = []) ∧
    (∀ entities : List DepthEntity, entities ≠ [] →
      Pass_DepthPrePass true entities = CmdEvent.beginPass "Pass_DepthPrePass" ::
        depthPrePassDraws entities ++ [CmdEvent.endPass, CmdEvent.submit]) ∧
    Pass_DepthPrePass true [] =
      [CmdEvent.beginPass "Pass_DepthPrePass", CmdEvent.endPass, CmdEvent.submit] := by
  refine ⟨fun sv sp entities lights tp h => ?_, fun sv sp lights tp => ?_,
    fun entities => ?_, fun entities h => ?_, by decide⟩
  · rcases h with h | h <;> simp [Pass_LightDepth, h]
  · rcases sv with - | - <;> rcases sp with - | - <;> simp [Pass_LightDepth]
  · simp [Pass_DepthPrePass]
  · simp [Pass_DepthPrePass, h]

/-- Witness for C9's amended theorem: an uncompiled pixel shader skips
`Pass_LightDepth` even with a non-empty entity list and light list, and a
non-empty `Pass_DepthPrePass` records its draw. -/
theorem C9_pass_skip_policy_witness :
    Pass_LightDepth true false [⟨true, true, true, true, true⟩]
      [⟨true, true, true, true, 4⟩] false = [] ∧
    Pass_DepthPrePass true [⟨true, true, true⟩] =
      CmdEvent.beginPass "Pass_DepthPrePass" ::
        depthPrePassDraws [⟨true, true, true⟩] ++ [CmdEvent.endPass, CmdEvent.submit] :=
  ⟨C9_pass_skip_policy.1 true false [⟨true, true, true, true, true⟩]
      [⟨true, true, true, true, 4⟩] false (Or.inr rfl),
   C9_pass_skip_policy.2.2.2.1 [⟨true, true, true⟩] (by decide)⟩

/-! ## `Renderer::SetResolution` -/

/-- The renderer state `SetResolution` touches: the stored resolution
(`m_resolution`, a float vector in C++ holding exact small integers,
modelled as naturals) and a generation counter standing for the render
targets, bumped by each `CreateRenderTextures()` call. -/
structure RendererResolution where
  width : Nat
  height : Nat
  render_target_generation : Nat
deriving DecidableEq, Repr

/-- `width -= (width % 2 != 0) ? 1 : 0` — the pixel-perfect rounding. -/
def make_even (w : Nat) : Nat := w - (if w % 2 ≠ 0 then 1 else 0)

/-- `Renderer::SetResolution`: reject (warn and return) when a dimension
is zero or above `max_texture_dimension_2d`; make both dimensions even;
return silently when the evened resolution is already stored; otherwise
store it and re-create the render textures. -/
def SetResolution (max_res : Nat) (st : RendererResolution) (width height : Nat) :
    RendererResolution :=
  if width = 0 ∨ width > max_res ∨ height = 0 ∨ height > max_res then st
  else
    if st.width = make_even width ∧ st.height = make_even height then st
    else ⟨make_even width, make_even height, st.render_target_generation + 1⟩

theorem make_even_even (w : Nat) : make_even w % 2 = 0 := by
  unfold make_even
  by_cases h : w % 2 = 0
  · simp [h]
  · simp [h]
    omega

/-- C10: `SetResolution` keeps the stored resolution even (an odd request
is reduced by one); an invalid request (zero or above the device maximum)
leaves the stored resolution and the render targets untouched; a request
whose evened value equals the stored resolution returns silently without
re-creating the render textures; and otherwise the evened resolution is
stored and the render textures are re-created exactly once. -/
theorem C10_set_resolution (max_res : Nat) (st : RendererResolution) (width height : Nat) :
    ((st.width % 2 = 0 ∧ st.height % 2 = 0) →
      ((SetResolution max_res st width height).width % 2 = 0 ∧
       (SetResolution max_res st width height).height % 2 = 0)) ∧
    ((width = 0 ∨ width > max_res ∨ height = 0 ∨ height > max_res) →
      SetResolution max_res st width height = st) ∧
    (¬ (width = 0 ∨ width > max_res ∨ height = 0 ∨ height > max_res) →
      ((st.width = make_even width ∧ st.height = make_even height) →
        SetResolution max_res st width height = st) ∧
      (¬ (st.width = make_even width ∧ st.height = make_even height) →
        SetResolution max_res st width height =
          ⟨make_even width, make_even height, st.render_target_generation + 1⟩)) := by
  refine ⟨fun heven => ?_, fun hbad => by simp [SetResolution, hbad],
    fun hok => ⟨fun hsame => by simp [SetResolution, hok, hsame],
      fun hdiff => by simp [SetResolution, hok, hdiff]⟩⟩
  by_cases hbad : width = 0 ∨ width > max_res ∨ height = 0 ∨ height > max_res
  · simpa [SetResolution, hbad] using heven
  · by_cases hsame : st.width = make_even width ∧ st.height = make_even height
    · simpa [SetResolution, hbad, hsame] using heven
    · simp [SetResolution, hbad, hsame, make_even_even]

/-- Witness for C10 at concrete inputs: a zero width is rejected (state
unchanged), and a request of 1281 x 721 against a stored 1280 x 720
returns silently — the evened resolution is already stored, so the render
targets are not re-created. -/
theorem C10_set_resolution_witness :
    SetResolution 16384 ⟨1280, 720, 0⟩ 0 720 = ⟨1280, 720, 0⟩ ∧
    SetResolution 16384 ⟨1280, 720, 0⟩ 1281 721 = ⟨1280, 720, 0⟩ :=
  ⟨(C10_set_resolution 16384 ⟨1280, 720, 0⟩ 0 720).2.1 (by decide),
   ((C10_set_resolution 16384 ⟨1280, 720, 0⟩ 1281 721).2.2 (by decide)).1 (by decide)⟩

end Spartan
